import Mathlib

/-!
Shallow embedding of the microservices core of the repository
(`src/microservices/load_balancer.py`, `service_discovery.py`,
`orchestration.py`) and verification of its specified properties.

Python `dict` values are modelled as association lists (`List (String × β)`)
with Python-dict semantics: lookup finds the first binding, assignment
updates an existing binding in place or appends a fresh one, deletion
removes the binding.  Timestamps (`time.time()` floats) are modelled as
integers; monetary exactness of float arithmetic is irrelevant here since
only comparisons of differences against integer thresholds occur.
-/

/-- Python `d.get(k)` / `d[k]` lookup: first binding wins. -/
def dictGet {β : Type} (d : List (String × β)) (k : String) : Option β :=
  match d with
  | [] => none
  | (k', v) :: rest => if k' = k then some v else dictGet rest k

/-- Python `d[k] = v`: overwrite an existing binding in place, else append. -/
def dictInsert {β : Type} (d : List (String × β)) (k : String) (v : β) :
    List (String × β) :=
  match d with
  | [] => [(k, v)]
  | (k', v') :: rest =>
    if k' = k then (k, v) :: rest else (k', v') :: dictInsert rest k v

/-- Python `d.pop(k, None)`: drop every binding of `k`. -/
def dictErase {β : Type} (d : List (String × β)) (k : String) :
    List (String × β) :=
  d.filter (fun p => decide (p.1 ≠ k))

/-- Python `k in d`. -/
def dictContains {β : Type} (d : List (String × β)) (k : String) : Bool :=
  (dictGet d k).isSome

theorem dictGet_insert_self {β : Type} (d : List (String × β)) (k : String)
    (v : β) : dictGet (dictInsert d k v) k = some v := by
  induction d with
  | nil => simp [dictInsert, dictGet]
  | cons p rest ih =>
    obtain ⟨a, b⟩ := p
    by_cases h : a = k
    · simp [dictInsert, dictGet, h]
    · simp [dictInsert, dictGet, h, ih]

theorem dictGet_insert_ne {β : Type} (d : List (String × β)) {k k' : String}
    (v : β) (h : k' ≠ k) : dictGet (dictInsert d k v) k' = dictGet d k' := by
  induction d with
  | nil => simp [dictInsert, dictGet, Ne.symm h]
  | cons p rest ih =>
    obtain ⟨a, b⟩ := p
    by_cases hp : a = k
    · have hp' : a ≠ k' := by
        rw [hp]
        exact Ne.symm h
      simp [dictInsert, dictGet, hp, hp', Ne.symm h]
    · by_cases hp' : a = k'
      · simp [dictInsert, dictGet, hp, hp', h]
      · simp [dictInsert, dictGet, hp, hp', ih]

theorem dictGet_erase_self {β : Type} (d : List (String × β)) (k : String) :
    dictGet (dictErase d k) k = none := by
  induction d with
  | nil => simp [dictErase, dictGet]
  | cons p rest ih =>
    obtain ⟨a, b⟩ := p
    by_cases h : a = k
    · simpa [dictErase, List.filter_cons, h] using ih
    · simpa [dictErase, List.filter_cons, dictGet, h] using ih

theorem dictGet_erase_ne {β : Type} (d : List (String × β)) {k k' : String}
    (h : k' ≠ k) : dictGet (dictErase d k) k' = dictGet d k' := by
  induction d with
  | nil => simp [dictErase, dictGet]
  | cons p rest ih =>
    obtain ⟨a, b⟩ := p
    by_cases hp : a = k
    · have hp' : a ≠ k' := by
        rw [hp]
        exact Ne.symm h
      simpa [dictErase, List.filter_cons, dictGet, hp, hp', Ne.symm h]
        using ih
    · by_cases hp' : a = k'
      · simp [dictErase, List.filter_cons, dictGet, hp, hp', h]
      · simpa [dictErase, List.filter_cons, dictGet, hp, hp'] using ih

theorem dictContains_insert {β : Type} (d : List (String × β)) (k k' : String)
    (v : β) :
    dictContains (dictInsert d k v) k' = true ↔
      k' = k ∨ dictContains d k' = true := by
  by_cases h : k' = k
  · subst h
    simp [dictContains, dictGet_insert_self]
  · simp [dictContains, dictGet_insert_ne d v h, h]

theorem dictContains_erase {β : Type} (d : List (String × β)) (k k' : String) :
    dictContains (dictErase d k) k' = true ↔
      k' ≠ k ∧ dictContains d k' = true := by
  by_cases h : k' = k
  · subst h
    simp [dictContains, dictGet_erase_self]
  · simp [dictContains, dictGet_erase_ne d h, h]

/-- Keys absent from the key list are absent from the dict. -/
theorem dictGet_eq_none_of_not_mem_keys {β : Type} (d : List (String × β))
    (k : String) (h : k ∉ d.map Prod.fst) : dictGet d k = none := by
  induction d with
  | nil => simp [dictGet]
  | cons p rest ih =>
    obtain ⟨a, b⟩ := p
    have ha : a ≠ k := by
      intro hc
      exact h (by simp [hc])
    have hr : k ∉ rest.map Prod.fst := by
      intro hc
      exact h (by simp [hc])
    simp [dictGet, ha, ih hr]

/-- If a key is absent, it stays absent in any filtered dict. -/
theorem dictGet_filter_none {β : Type} (p : String × β → Bool)
    (d : List (String × β)) (k : String) (h : dictGet d k = none) :
    dictGet (d.filter p) k = none := by
  induction d with
  | nil => simp [dictGet]
  | cons q rest ih =>
    obtain ⟨a, b⟩ := q
    by_cases hk : a = k
    · simp [dictGet, hk] at h
    · have h' : dictGet rest k = none := by
        simpa [dictGet, hk] using h
      by_cases hp : p (a, b)
      · simpa [List.filter_cons, hp, dictGet, hk] using ih h'
      · simpa [List.filter_cons, hp] using ih h'

/-- Lookup in a value-filtered dict whose keys are distinct:
the surviving binding is the original one exactly when it passes the
filter. -/
theorem dictGet_filter_of_nodupKeys {β : Type} (q : β → Bool)
    (d : List (String × β)) (hnd : (d.map Prod.fst).Nodup) (k : String) :
    dictGet (d.filter (fun p => q p.2)) k =
      (dictGet d k).bind (fun v => if q v then some v else none) := by
  induction d with
  | nil => simp [dictGet]
  | cons p rest ih =>
    obtain ⟨a, b⟩ := p
    rw [List.map_cons, List.nodup_cons] at hnd
    have hnd' : (rest.map Prod.fst).Nodup := hnd.2
    have hnotmem : a ∉ rest.map Prod.fst := hnd.1
    by_cases hk : a = k
    · subst hk
      have hrest : dictGet rest a = none :=
        dictGet_eq_none_of_not_mem_keys rest a hnotmem
      by_cases hq : q b
      · simp [dictGet, hq, List.filter_cons]
      · simp [dictGet, List.filter_cons, hq,
          dictGet_filter_none (fun p => q p.2) rest a hrest]
    · by_cases hq : q b
      · simp [dictGet, List.filter_cons, hq, hk, ih hnd']
      · simp [dictGet, List.filter_cons, hq, hk, ih hnd']

/-! ## Data model: `ServiceInfo` (service_discovery.py) -/

/-- Information about a registered service (dataclass `ServiceInfo`). -/
structure ServiceInfo where
  name : String
  host : String
  port : Nat
  health_check_url : String := ""
  last_heartbeat : Int := 0
  deriving DecidableEq, Repr

/-! ## LoadBalancer (load_balancer.py) -/

/-- Configuration for load balancing (dataclass `LoadBalancingConfig`). -/
structure LoadBalancingConfig where
  strategy : String := "round_robin"
  health_check_enabled : Bool := true
  health_check_interval : Nat := 30
  circuit_breaker_enabled : Bool := true
  circuit_breaker_threshold : Nat := 5
  retry_attempts : Nat := 3
  deriving DecidableEq, Repr

/-- State of class `LoadBalancer`. -/
structure LoadBalancer where
  config : LoadBalancingConfig
  services : List ServiceInfo := []
  current_index : Nat := 0
  connection_counts : List (String × Int) := []
  circuit_breaker_states : List (String × Bool) := []
  failure_counts : List (String × Nat) := []
  deriving DecidableEq, Repr

/-- Method `LoadBalancer.add_service`. -/
def LoadBalancer.add_service (lb : LoadBalancer) (service : ServiceInfo) :
    LoadBalancer :=
  { lb with
    services := lb.services ++ [service]
    connection_counts := dictInsert lb.connection_counts service.name 0
    circuit_breaker_states :=
      dictInsert lb.circuit_breaker_states service.name false
    failure_counts := dictInsert lb.failure_counts service.name 0 }

/-- Method `LoadBalancer.remove_service`. -/
def LoadBalancer.remove_service (lb : LoadBalancer) (service_name : String) :
    LoadBalancer :=
  { lb with
    services := lb.services.filter (fun s => decide (s.name ≠ service_name))
    connection_counts := dictErase lb.connection_counts service_name
    circuit_breaker_states := dictErase lb.circuit_breaker_states service_name
    failure_counts := dictErase lb.failure_counts service_name }

/-- The `available_services` list computed at the top of `get_next_service`:
services whose circuit-breaker flag is not set. -/
def LoadBalancer.availableServices (lb : LoadBalancer) : List ServiceInfo :=
  lb.services.filter
    (fun s => !(dictGet lb.circuit_breaker_states s.name).getD false)

/-- Python `min(available, key = connection count, first minimum wins)`. -/
def minByConn (counts : List (String × Int)) :
    List ServiceInfo → Option ServiceInfo
  | [] => none
  | s :: rest =>
    some (rest.foldl
      (fun best cur =>
        if (dictGet counts cur.name).getD 0 < (dictGet counts best.name).getD 0
        then cur else best) s)

/-- Method `LoadBalancer.get_next_service`.  `random.choice` is modelled by
an external index `randPick`, reduced modulo the list length, so theorems
quantified over `randPick` cover every possible random outcome. -/
def LoadBalancer.get_next_service (lb : LoadBalancer) (randPick : Nat) :
    Option ServiceInfo × LoadBalancer :=
  let avail := lb.availableServices
  if avail.isEmpty then (none, lb)
  else if lb.config.strategy = "round_robin" then
    (avail.get? (lb.current_index % avail.length),
     { lb with current_index := lb.current_index + 1 })
  else if lb.config.strategy = "random" then
    (avail.get? (randPick % avail.length), lb)
  else if lb.config.strategy = "least_connections" then
    (minByConn lb.connection_counts avail, lb)
  else
    (avail.head?, lb)

/-- Method `LoadBalancer.increment_connection`. -/
def LoadBalancer.increment_connection (lb : LoadBalancer)
    (service_name : String) : LoadBalancer :=
  if dictContains lb.connection_counts service_name then
    { lb with connection_counts :=
        (dictInsert lb.connection_counts service_name
          ((dictGet lb.connection_counts service_name).getD 0 + 1)) }
  else lb

/-- Method `LoadBalancer.decrement_connection`. -/
def LoadBalancer.decrement_connection (lb : LoadBalancer)
    (service_name : String) : LoadBalancer :=
  if dictContains lb.connection_counts service_name then
    { lb with connection_counts :=
        (dictInsert lb.connection_counts service_name
          (max 0 ((dictGet lb.connection_counts service_name).getD 0 - 1))) }
  else lb

/-- Method `LoadBalancer.record_failure`. -/
def LoadBalancer.record_failure (lb : LoadBalancer) (service_name : String) :
    LoadBalancer :=
  if !lb.config.circuit_breaker_enabled then lb
  else
    let fc := (dictGet lb.failure_counts service_name).getD 0 + 1
    let lb' := { lb with
      failure_counts := dictInsert lb.failure_counts service_name fc }
    if lb.config.circuit_breaker_threshold ≤ fc then
      { lb' with circuit_breaker_states :=
          dictInsert lb'.circuit_breaker_states service_name true }
    else lb'

/-- Method `LoadBalancer.record_success`. -/
def LoadBalancer.record_success (lb : LoadBalancer) (service_name : String) :
    LoadBalancer :=
  { lb with
    failure_counts := dictInsert lb.failure_counts service_name 0
    circuit_breaker_states :=
      dictInsert lb.circuit_breaker_states service_name false }

/-! ## ServiceRegistry and ServiceDiscovery (service_discovery.py) -/

/-- State of class `ServiceRegistry`.  The background cleanup task is
modelled by the pure function `cleanupSweep` below, one iteration of the
`while` body of `_cleanup_loop` run at a given time. -/
structure ServiceRegistry where
  services : List (String × ServiceInfo) := []
  cleanup_interval : Int := 60
  service_timeout : Int := 30
  deriving DecidableEq, Repr

/-- Method `ServiceRegistry.register_service` (always returns `True`). -/
def ServiceRegistry.register_service (r : ServiceRegistry)
    (service_info : ServiceInfo) (now : Int) : ServiceRegistry :=
  { r with services :=
      (dictInsert r.services service_info.name
        { service_info with last_heartbeat := now }) }

/-- Method `ServiceRegistry.unregister_service`. -/
def ServiceRegistry.unregister_service (r : ServiceRegistry)
    (service_name : String) : ServiceRegistry × Bool :=
  if dictContains r.services service_name then
    ({ r with services := dictErase r.services service_name }, true)
  else (r, false)

/-- Method `ServiceRegistry.get_service`. -/
def ServiceRegistry.get_service (r : ServiceRegistry)
    (service_name : String) : Option ServiceInfo :=
  dictGet r.services service_name

/-- Method `ServiceRegistry.heartbeat`. -/
def ServiceRegistry.heartbeat (r : ServiceRegistry) (service_name : String)
    (now : Int) : ServiceRegistry × Bool :=
  match dictGet r.services service_name with
  | some info =>
    ({ r with services :=
        (dictInsert r.services service_name
          { info with last_heartbeat := now }) }, true)
  | none => (r, false)

/-- One iteration of the body of `ServiceRegistry._cleanup_loop`, run at
time `now`: collect every entry with `now - last_heartbeat >
service_timeout` and delete it. -/
def ServiceRegistry.cleanupSweep (r : ServiceRegistry) (now : Int) :
    ServiceRegistry :=
  { r with services :=
      (r.services.filter
        (fun p => !(r.service_timeout < now - p.2.last_heartbeat))) }

/-- State of class `ServiceDiscovery`: a read-through cache of
`(ServiceInfo, timestamp)` entries in front of a registry. -/
structure ServiceDiscovery where
  cache_ttl : Int := 10
  cache : List (String × (ServiceInfo × Int)) := []
  deriving DecidableEq, Repr

/-- Method `ServiceDiscovery.discover_service`, run at time `now` against
registry `r` (the registry itself is read-only here, so it is passed as a
parameter rather than stored). -/
def ServiceDiscovery.discover_service (d : ServiceDiscovery)
    (r : ServiceRegistry) (service_name : String) (now : Int) :
    Option ServiceInfo × ServiceDiscovery :=
  let queryRegistry : Option ServiceInfo × ServiceDiscovery :=
    match r.get_service service_name with
    | some info =>
      (some info,
       { d with cache := dictInsert d.cache service_name (info, now) })
    | none => (none, d)
  match dictGet d.cache service_name with
  | some (info, timestamp) =>
    if now - timestamp < d.cache_ttl then (some info, d)
    else queryRegistry
  | none => queryRegistry

/-! ## HealthMonitor (orchestration.py) -/

/-- Enum `ServiceStatus`. -/
inductive ServiceStatus where
  | healthy
  | unhealthy
  | unknown
  deriving DecidableEq, Repr

/-- Dataclass `ServiceHealth`. -/
structure ServiceHealth where
  service_name : String
  status : ServiceStatus
  last_check : Int
  response_time : Option Int := none
  error_message : Option String := none
  consecutive_failures : Nat := 0
  deriving DecidableEq, Repr

/-- Outcome of one HTTP health probe, as distinguished by
`HealthMonitor.check_service_health`: an HTTP 200 response (with its
latency), a non-200 response (with its status code), or a transport
exception (with its message). -/
inductive ProbeOutcome where
  | ok200 (responseTime : Int)
  | httpError (status : Nat)
  | exn (message : String)
  deriving DecidableEq, Repr

/-- The status a probe outcome classifies the service into. -/
def ProbeOutcome.classification : ProbeOutcome → ServiceStatus
  | .ok200 _ => .healthy
  | .httpError _ => .unhealthy
  | .exn _ => .unhealthy

/-- Method `HealthMonitor._handle_health_failure`: returns the updated
record and whether `_notify_health_change` was invoked. -/
def handle_health_failure (health : ServiceHealth) (error : String) :
    ServiceHealth × Bool :=
  let old_status := health.status
  let health' := { health with
    status := ServiceStatus.unhealthy
    error_message := some error
    consecutive_failures := health.consecutive_failures + 1 }
  (health', decide (old_status ≠ ServiceStatus.unhealthy))

/-- Method `HealthMonitor.check_service_health`, restricted to one
service's `ServiceHealth` record: the probe outcome and its completion
time are inputs, and the result is the updated record together with
whether the health-change callbacks were fired. -/
def check_service_health (health : ServiceHealth) (outcome : ProbeOutcome)
    (endTime : Int) : ServiceHealth × Bool :=
  match outcome with
  | .ok200 responseTime =>
    let old_status := health.status
    let health' := { health with
      status := ServiceStatus.healthy
      response_time := some responseTime
      error_message := none
      consecutive_failures := 0 }
    ({ health' with last_check := endTime },
     decide (old_status ≠ ServiceStatus.healthy))
  | .httpError status =>
    let p := handle_health_failure health ("HTTP " ++ toString status)
    ({ p.1 with last_check := endTime }, p.2)
  | .exn message =>
    let p := handle_health_failure health message
    ({ p.1 with last_check := endTime }, p.2)

/-- A sequence of probes of one service: the final record and the total
number of probes that fired the health-change callbacks. -/
def runProbes (health : ServiceHealth) :
    List (ProbeOutcome × Int) → ServiceHealth × Nat
  | [] => (health, 0)
  | (outcome, t) :: rest =>
    let p := check_service_health health outcome t
    let q := runProbes p.1 rest
    (q.1, (if p.2 then 1 else 0) + q.2)

/-! ## ServiceOrchestrator (orchestration.py) -/

/-- Dataclass `OrchestrationConfig`. -/
structure OrchestrationConfig where
  health_check_interval : Nat := 30
  health_check_timeout : Nat := 5
  deployment_timeout : Nat := 300
  scaling_enabled : Bool := true
  auto_restart_enabled : Bool := true
  max_restart_attempts : Nat := 3
  deriving DecidableEq, Repr

/-- State of class `ServiceOrchestrator` relevant to restart gating. -/
structure ServiceOrchestrator where
  config : OrchestrationConfig
  restart_attempts : List (String × Nat) := []
  deriving DecidableEq, Repr

/-- Method `ServiceOrchestrator.restart_service`: the new state and the
returned boolean. -/
def ServiceOrchestrator.restart_service (o : ServiceOrchestrator)
    (service_name : String) : ServiceOrchestrator × Bool :=
  if !o.config.auto_restart_enabled then (o, false)
  else
    let attempts := (dictGet o.restart_attempts service_name).getD 0
    if o.config.max_restart_attempts ≤ attempts then (o, false)
    else
      ({ o with restart_attempts :=
          dictInsert o.restart_attempts service_name (attempts + 1) },
       true)

/-- Iterated restarts of a single service. -/
def restartIter (o : ServiceOrchestrator) (service_name : String) :
    Nat → ServiceOrchestrator
  | 0 => o
  | n + 1 => ((restartIter o service_name n).restart_service service_name).1

/-! ## Supporting lemmas: LoadBalancer -/

/-- Consecutive failures recorded for one service. -/
def failIter (lb : LoadBalancer) (service_name : String) :
    Nat → LoadBalancer
  | 0 => lb
  | n + 1 => (failIter lb service_name n).record_failure service_name

theorem record_failure_config (lb : LoadBalancer) (name : String) :
    (lb.record_failure name).config = lb.config := by
  simp only [LoadBalancer.record_failure]
  split
  · rfl
  · split <;> rfl

theorem record_failure_services (lb : LoadBalancer) (name : String) :
    (lb.record_failure name).services = lb.services := by
  simp only [LoadBalancer.record_failure]
  split
  · rfl
  · split <;> rfl

theorem record_failure_fcounts (lb : LoadBalancer) (name : String)
    (he : lb.config.circuit_breaker_enabled = true) :
    (lb.record_failure name).failure_counts =
      dictInsert lb.failure_counts name
        ((dictGet lb.failure_counts name).getD 0 + 1) := by
  simp only [LoadBalancer.record_failure, he, Bool.not_true,
    Bool.false_eq_true, if_false]
  split <;> rfl

theorem record_failure_cb (lb : LoadBalancer) (name : String)
    (he : lb.config.circuit_breaker_enabled = true) :
    (lb.record_failure name).circuit_breaker_states =
      if lb.config.circuit_breaker_threshold ≤
          (dictGet lb.failure_counts name).getD 0 + 1 then
        dictInsert lb.circuit_breaker_states name true
      else lb.circuit_breaker_states := by
  simp only [LoadBalancer.record_failure, he, Bool.not_true,
    Bool.false_eq_true, if_false]
  split <;> rfl

theorem failIter_config (lb : LoadBalancer) (name : String) (k : Nat) :
    (failIter lb name k).config = lb.config := by
  induction k with
  | zero => rfl
  | succ n ih => rw [failIter, record_failure_config, ih]

theorem failIter_services (lb : LoadBalancer) (name : String) (k : Nat) :
    (failIter lb name k).services = lb.services := by
  induction k with
  | zero => rfl
  | succ n ih => rw [failIter, record_failure_services, ih]

theorem failIter_fcount (lb : LoadBalancer) (name : String)
    (he : lb.config.circuit_breaker_enabled = true)
    (h0 : dictGet lb.failure_counts name = some 0) :
    ∀ k, dictGet (failIter lb name k).failure_counts name = some k := by
  intro k
  induction k with
  | zero => exact h0
  | succ n ih =>
    rw [failIter, record_failure_fcounts _ _ (by rw [failIter_config]; exact he),
      ih]
    simp [dictGet_insert_self]

theorem failIter_cb_closed (lb : LoadBalancer) (name : String)
    (he : lb.config.circuit_breaker_enabled = true)
    (h0 : dictGet lb.failure_counts name = some 0)
    (hcb : dictGet lb.circuit_breaker_states name = some false) :
    ∀ k, k < lb.config.circuit_breaker_threshold →
      dictGet (failIter lb name k).circuit_breaker_states name =
        some false := by
  intro k
  induction k with
  | zero => intro _; exact hcb
  | succ n ih =>
    intro hk
    rw [failIter, record_failure_cb _ _ (by rw [failIter_config]; exact he)]
    rw [failIter_fcount lb name he h0 n, failIter_config]
    have hlt : ¬ lb.config.circuit_breaker_threshold ≤
        (some n : Option Nat).getD 0 + 1 := by
      simp only [Option.getD_some]
      omega
    rw [if_neg hlt]
    exact ih (by omega)

theorem failIter_cb_open (lb : LoadBalancer) (name : String)
    (he : lb.config.circuit_breaker_enabled = true)
    (h0 : dictGet lb.failure_counts name = some 0)
    (ht : 1 ≤ lb.config.circuit_breaker_threshold) :
    dictGet
      (failIter lb name lb.config.circuit_breaker_threshold).circuit_breaker_states
      name = some true := by
  obtain ⟨t, hteq⟩ : ∃ t, lb.config.circuit_breaker_threshold = t + 1 :=
    ⟨lb.config.circuit_breaker_threshold - 1, by omega⟩
  rw [hteq, failIter,
    record_failure_cb _ _ (by rw [failIter_config]; exact he),
    failIter_fcount lb name he h0 t, failIter_config]
  have hge : lb.config.circuit_breaker_threshold ≤
      (some t : Option Nat).getD 0 + 1 := by
    simp only [Option.getD_some]
    omega
  rw [if_pos hge, dictGet_insert_self]

/-- Results of `minByConn` are members of the input list. -/
theorem minByConn_mem (counts : List (String × Int)) :
    ∀ (l : List ServiceInfo) (s : ServiceInfo),
      minByConn counts l = some s → s ∈ l := by
  have hfold : ∀ (l : List ServiceInfo) (b : ServiceInfo),
      (l.foldl (fun best cur =>
        if (dictGet counts cur.name).getD 0 <
            (dictGet counts best.name).getD 0
        then cur else best) b) ∈ b :: l := by
    intro l
    induction l with
    | nil => intro b; simp
    | cons c cs ih =>
      intro b
      simp only [List.foldl_cons]
      rcases List.mem_cons.mp (ih (if (dictGet counts c.name).getD 0 <
          (dictGet counts b.name).getD 0 then c else b)) with h | h
      · rw [h]
        split
        · simp
        · simp
      · simp [h]
  intro l s h
  cases l with
  | nil => simp [minByConn] at h
  | cons a rest =>
    simp only [minByConn, Option.some_inj] at h
    have := hfold rest a
    rw [h] at this
    rcases List.mem_cons.mp this with h' | h'
    · simp [h']
    · simp [h']

/-- Whatever the strategy, `get_next_service` only returns members of the
available list. -/
theorem get_next_service_mem (lb : LoadBalancer) (r : Nat)
    (s : ServiceInfo) (h : (lb.get_next_service r).1 = some s) :
    s ∈ lb.availableServices := by
  simp only [LoadBalancer.get_next_service] at h
  split at h
  · simp at h
  · split at h
    · exact List.get?_mem h
    · split at h
      · exact List.get?_mem h
      · split at h
        · exact minByConn_mem _ _ _ h
        · have h' : lb.availableServices.head? = some s := h
          exact List.mem_of_mem_head? (by simp [h'])

/-- Members of the available list have their circuit-breaker flag unset. -/
theorem availableServices_cb (lb : LoadBalancer) (s : ServiceInfo)
    (h : s ∈ lb.availableServices) :
    (dictGet lb.circuit_breaker_states s.name).getD false = false := by
  have := (List.mem_filter.mp h).2
  simpa using this

/-! ## Claim C1: circuit breaker -/

/-- C1: for a service with circuit breaking enabled whose failure counter
starts at 0 and whose breaker is closed, the breaker stays closed strictly
before `circuit_breaker_threshold` consecutive `record_failure` calls,
is open after exactly that many, and `get_next_service` then never returns
that service under any strategy or random pick; a single `record_success`
resets the counter to 0, closes the breaker, and makes every service of
that name a member of the available selection set again immediately. -/
theorem C1_circuit_breaker (lb : LoadBalancer) (name : String)
    (he : lb.config.circuit_breaker_enabled = true)
    (ht : 1 ≤ lb.config.circuit_breaker_threshold)
    (h0 : dictGet lb.failure_counts name = some 0)
    (hcb : dictGet lb.circuit_breaker_states name = some false) :
    (∀ k, k < lb.config.circuit_breaker_threshold →
      dictGet (failIter lb name k).circuit_breaker_states name =
        some false) ∧
    dictGet (failIter lb name
        lb.config.circuit_breaker_threshold).circuit_breaker_states name =
      some true ∧
    (∀ (r : Nat) (s : ServiceInfo),
      ((failIter lb name
          lb.config.circuit_breaker_threshold).get_next_service r).1 =
        some s → s.name ≠ name) ∧
    dictGet ((failIter lb name
        lb.config.circuit_breaker_threshold).record_success
          name).failure_counts name = some 0 ∧
    dictGet ((failIter lb name
        lb.config.circuit_breaker_threshold).record_success
          name).circuit_breaker_states name = some false ∧
    (∀ s ∈ lb.services, s.name = name →
      s ∈ ((failIter lb name
        lb.config.circuit_breaker_threshold).record_success
          name).availableServices) := by
  have hopen := failIter_cb_open lb name he h0 ht
  refine ⟨failIter_cb_closed lb name he h0 hcb, hopen, ?_, ?_, ?_, ?_⟩
  · intro r s h hname
    have hmem := get_next_service_mem _ r s h
    have hflag := availableServices_cb _ s hmem
    rw [hname, hopen] at hflag
    simp at hflag
  · simp [LoadBalancer.record_success, dictGet_insert_self]
  · simp [LoadBalancer.record_success, dictGet_insert_self]
  · intro s hs hname
    refine List.mem_filter.mpr ⟨?_, ?_⟩
    · show s ∈ (failIter lb name
        lb.config.circuit_breaker_threshold).services
      rw [failIter_services]
      exact hs
    · show (!(dictGet ((failIter lb name
        lb.config.circuit_breaker_threshold).record_success
          name).circuit_breaker_states s.name).getD false) = true
      rw [hname]
      simp [LoadBalancer.record_success, dictGet_insert_self]

/-- Sample service used by concrete witnesses. -/
def svcA : ServiceInfo := { name := "a", host := "h", port := 1 }

/-- Sample service used by concrete witnesses. -/
def svcB : ServiceInfo := { name := "b", host := "h", port := 2 }

/-- Sample service used by concrete witnesses. -/
def svcC : ServiceInfo := { name := "c", host := "h", port := 3 }

/-- A default-config load balancer holding the single service `svcA`. -/
def lbC1 : LoadBalancer := LoadBalancer.add_service { config := {} } svcA

/-- Witness for C1 on a concrete one-service load balancer with the default
configuration (threshold 5). -/
theorem C1_circuit_breaker_witness :
    (lbC1.config.circuit_breaker_enabled = true ∧
     1 ≤ lbC1.config.circuit_breaker_threshold ∧
     dictGet lbC1.failure_counts "a" = some 0 ∧
     dictGet lbC1.circuit_breaker_states "a" = some false) ∧
    ((∀ k, k < lbC1.config.circuit_breaker_threshold →
      dictGet (failIter lbC1 "a" k).circuit_breaker_states "a" =
        some false) ∧
    dictGet (failIter lbC1 "a"
        lbC1.config.circuit_breaker_threshold).circuit_breaker_states "a" =
      some true ∧
    (∀ (r : Nat) (s : ServiceInfo),
      ((failIter lbC1 "a"
          lbC1.config.circuit_breaker_threshold).get_next_service r).1 =
        some s → s.name ≠ "a") ∧
    dictGet ((failIter lbC1 "a"
        lbC1.config.circuit_breaker_threshold).record_success
          "a").failure_counts "a" = some 0 ∧
    dictGet ((failIter lbC1 "a"
        lbC1.config.circuit_breaker_threshold).record_success
          "a").circuit_breaker_states "a" = some false ∧
    (∀ s ∈ lbC1.services, s.name = "a" →
      s ∈ ((failIter lbC1 "a"
        lbC1.config.circuit_breaker_threshold).record_success
          "a").availableServices)) :=
  ⟨⟨rfl, by decide, by decide, by decide⟩,
   C1_circuit_breaker lbC1 "a" rfl (by decide) (by decide) (by decide)⟩

/-! ## Claim C2: the three per-service maps share their key set -/

/-- Boolean test that two dicts have the same key set. -/
def eqKeysB {β γ : Type} (d1 : List (String × β)) (d2 : List (String × γ)) :
    Bool :=
  d1.all (fun p => dictContains d2 p.1) &&
  d2.all (fun p => dictContains d1 p.1)

/-- The §3 invariant: connection counter, circuit-breaker flag and failure
counter exist for exactly the same service names. -/
def LoadBalancer.mapsAligned (lb : LoadBalancer) : Bool :=
  eqKeysB lb.connection_counts lb.circuit_breaker_states &&
  eqKeysB lb.connection_counts lb.failure_counts

theorem dictContains_iff_mem_keys {β : Type} (d : List (String × β))
    (k : String) : dictContains d k = true ↔ k ∈ d.map Prod.fst := by
  induction d with
  | nil => simp [dictContains, dictGet]
  | cons p rest ih =>
    obtain ⟨a, b⟩ := p
    by_cases h : a = k
    · simp [dictContains, dictGet, h]
    · have hka : ¬ k = a := fun hc => h hc.symm
      simpa [dictContains, dictGet, h, hka] using ih

theorem eqKeysB_iff {β γ : Type} (d1 : List (String × β))
    (d2 : List (String × γ)) :
    eqKeysB d1 d2 = true ↔
      ∀ k, dictContains d1 k = dictContains d2 k := by
  rw [eqKeysB, Bool.and_eq_true, List.all_eq_true, List.all_eq_true]
  constructor
  · intro h k
    cases hc1 : dictContains d1 k with
    | true =>
      obtain ⟨p, hp, rfl⟩ :=
        List.mem_map.mp ((dictContains_iff_mem_keys d1 k).mp hc1)
      exact (h.1 p hp).symm
    | false =>
      cases hc2 : dictContains d2 k with
      | true =>
        obtain ⟨p, hp, rfl⟩ :=
          List.mem_map.mp ((dictContains_iff_mem_keys d2 k).mp hc2)
        rw [h.2 p hp] at hc1
        exact hc1.symm
      | false => rfl
  · intro h
    constructor
    · intro p hp
      rw [← h p.1]
      exact (dictContains_iff_mem_keys d1 p.1).mpr
        (List.mem_map.mpr ⟨p, hp, rfl⟩)
    · intro p hp
      rw [h p.1]
      exact (dictContains_iff_mem_keys d2 p.1).mpr
        (List.mem_map.mpr ⟨p, hp, rfl⟩)

theorem mapsAligned_iff (lb : LoadBalancer) :
    lb.mapsAligned = true ↔
      (∀ k, dictContains lb.connection_counts k =
        dictContains lb.circuit_breaker_states k) ∧
      (∀ k, dictContains lb.connection_counts k =
        dictContains lb.failure_counts k) := by
  rw [LoadBalancer.mapsAligned, Bool.and_eq_true, eqKeysB_iff, eqKeysB_iff]

theorem dictContains_insert_eq {β : Type} (d : List (String × β))
    (k k' : String) (v : β) :
    dictContains (dictInsert d k v) k' =
      (decide (k' = k) || dictContains d k') := by
  by_cases h : k' = k
  · subst h
    simp [dictContains, dictGet_insert_self]
  · simp [dictContains, dictGet_insert_ne d v h, h]

theorem dictContains_erase_eq {β : Type} (d : List (String × β))
    (k k' : String) :
    dictContains (dictErase d k) k' =
      (!decide (k' = k) && dictContains d k') := by
  by_cases h : k' = k
  · subst h
    simp [dictContains, dictGet_erase_self]
  · simp [dictContains, dictGet_erase_ne d h, h]

theorem get_next_service_snd (lb : LoadBalancer) (r : Nat) :
    (lb.get_next_service r).2 = lb ∨
    (lb.get_next_service r).2 =
      { lb with current_index := lb.current_index + 1 } := by
  unfold LoadBalancer.get_next_service
  by_cases h1 : lb.availableServices.isEmpty
  · left
    simp [h1]
  · by_cases h2 : lb.config.strategy = "round_robin"
    · right
      simp [h1, h2]
    · by_cases h3 : lb.config.strategy = "random"
      · left
        simp [h1, h2, h3]
      · by_cases h4 : lb.config.strategy = "least_connections"
        · left
          simp [h1, h2, h3, h4]
        · left
          simp [h1, h2, h3, h4]

theorem record_failure_ccounts (lb : LoadBalancer) (name : String) :
    (lb.record_failure name).connection_counts = lb.connection_counts := by
  simp only [LoadBalancer.record_failure]
  split
  · rfl
  · split <;> rfl

theorem record_failure_of_disabled (lb : LoadBalancer) (name : String)
    (he : lb.config.circuit_breaker_enabled = false) :
    lb.record_failure name = lb := by
  simp [LoadBalancer.record_failure, he]

/-- C2 corrected: `add_service`, `remove_service`, `get_next_service`,
`increment_connection` and `decrement_connection` unconditionally preserve
equality of the three key sets, and `record_failure` / `record_success`
preserve it for names that already have an entry (as every name added via
`add_service` does); the original claim fails for unknown names, see the
counterexample. -/
theorem C2_keysets_amended (lb : LoadBalancer) (h : lb.mapsAligned = true) :
    (∀ s : ServiceInfo, (lb.add_service s).mapsAligned = true) ∧
    (∀ name, (lb.remove_service name).mapsAligned = true) ∧
    (∀ r, (lb.get_next_service r).2.mapsAligned = true) ∧
    (∀ name, (lb.increment_connection name).mapsAligned = true) ∧
    (∀ name, (lb.decrement_connection name).mapsAligned = true) ∧
    (∀ name, dictContains lb.connection_counts name = true →
      (lb.record_failure name).mapsAligned = true ∧
      (lb.record_success name).mapsAligned = true) := by
  obtain ⟨h1, h2⟩ := (mapsAligned_iff lb).mp h
  refine ⟨?_, ?_, ?_, ?_, ?_, ?_⟩
  · intro s
    rw [mapsAligned_iff]
    constructor
    · intro k
      show dictContains (dictInsert lb.connection_counts s.name 0) k =
        dictContains (dictInsert lb.circuit_breaker_states s.name false) k
      rw [dictContains_insert_eq, dictContains_insert_eq, h1 k]
    · intro k
      show dictContains (dictInsert lb.connection_counts s.name 0) k =
        dictContains (dictInsert lb.failure_counts s.name 0) k
      rw [dictContains_insert_eq, dictContains_insert_eq, h2 k]
  · intro name
    rw [mapsAligned_iff]
    constructor
    · intro k
      show dictContains (dictErase lb.connection_counts name) k =
        dictContains (dictErase lb.circuit_breaker_states name) k
      rw [dictContains_erase_eq, dictContains_erase_eq, h1 k]
    · intro k
      show dictContains (dictErase lb.connection_counts name) k =
        dictContains (dictErase lb.failure_counts name) k
      rw [dictContains_erase_eq, dictContains_erase_eq, h2 k]
  · intro r
    rcases get_next_service_snd lb r with hs | hs
    · rw [hs]
      exact h
    · rw [hs]
      simpa [LoadBalancer.mapsAligned] using h
  · intro name
    unfold LoadBalancer.increment_connection
    by_cases hc : dictContains lb.connection_counts name
    · rw [if_pos hc, mapsAligned_iff]
      constructor
      · intro k
        show dictContains (dictInsert lb.connection_counts name
            ((dictGet lb.connection_counts name).getD 0 + 1)) k =
          dictContains lb.circuit_breaker_states k
        rw [dictContains_insert_eq]
        by_cases hk : k = name
        · subst hk
          simp [← h1 k, hc]
        · simp [hk, h1 k]
      · intro k
        show dictContains (dictInsert lb.connection_counts name
            ((dictGet lb.connection_counts name).getD 0 + 1)) k =
          dictContains lb.failure_counts k
        rw [dictContains_insert_eq]
        by_cases hk : k = name
        · subst hk
          simp [← h2 k, hc]
        · simp [hk, h2 k]
    · rw [if_neg hc]
      exact h
  · intro name
    unfold LoadBalancer.decrement_connection
    by_cases hc : dictContains lb.connection_counts name
    · rw [if_pos hc, mapsAligned_iff]
      constructor
      · intro k
        show dictContains (dictInsert lb.connection_counts name
            (max 0 ((dictGet lb.connection_counts name).getD 0 - 1))) k =
          dictContains lb.circuit_breaker_states k
        rw [dictContains_insert_eq]
        by_cases hk : k = name
        · subst hk
          simp [← h1 k, hc]
        · simp [hk, h1 k]
      · intro k
        show dictContains (dictInsert lb.connection_counts name
            (max 0 ((dictGet lb.connection_counts name).getD 0 - 1))) k =
          dictContains lb.failure_counts k
        rw [dictContains_insert_eq]
        by_cases hk : k = name
        · subst hk
          simp [← h2 k, hc]
        · simp [hk, h2 k]
    · rw [if_neg hc]
      exact h
  · intro name hcc
    constructor
    · by_cases he : lb.config.circuit_breaker_enabled
      · rw [mapsAligned_iff]
        constructor
        · intro k
          rw [record_failure_ccounts, record_failure_cb lb name he]
          split
          · rw [dictContains_insert_eq]
            by_cases hk : k = name
            · subst hk
              simp [hcc]
            · simp [hk, h1 k]
          · exact h1 k
        · intro k
          rw [record_failure_ccounts, record_failure_fcounts lb name he,
            dictContains_insert_eq]
          by_cases hk : k = name
          · subst hk
            simp [hcc]
          · simp [hk, h2 k]
      · rw [record_failure_of_disabled lb name (by simpa using he)]
        exact h
    · rw [mapsAligned_iff]
      constructor
      · intro k
        show dictContains lb.connection_counts k =
          dictContains (dictInsert lb.circuit_breaker_states name false) k
        rw [dictContains_insert_eq]
        by_cases hk : k = name
        · subst hk
          simp [hcc]
        · simp [hk, h1 k]
      · intro k
        show dictContains lb.connection_counts k =
          dictContains (dictInsert lb.failure_counts name 0) k
        rw [dictContains_insert_eq]
        by_cases hk : k = name
        · subst hk
          simp [hcc]
        · simp [hk, h2 k]

/-- A load balancer with the default configuration and no services. -/
def lbEmpty : LoadBalancer := { config := {} }

/-- Counterexample to C2 as stated: from the aligned empty state,
`record_failure` on a name that was never added creates a failure-counter
entry with no matching connection-counter or breaker entry, so the three
key sets are no longer identical. -/
theorem C2_keysets_counterexample :
    lbEmpty.mapsAligned = true ∧
    (lbEmpty.record_failure "x").mapsAligned = false := by
  constructor
  · decide
  · decide

/-- Witness for the amended C2 on a concrete one-service load balancer. -/
theorem C2_keysets_amended_witness :
    lbC1.mapsAligned = true ∧
    ((∀ s : ServiceInfo, (lbC1.add_service s).mapsAligned = true) ∧
    (∀ name, (lbC1.remove_service name).mapsAligned = true) ∧
    (∀ r, (lbC1.get_next_service r).2.mapsAligned = true) ∧
    (∀ name, (lbC1.increment_connection name).mapsAligned = true) ∧
    (∀ name, (lbC1.decrement_connection name).mapsAligned = true) ∧
    (∀ name, dictContains lbC1.connection_counts name = true →
      (lbC1.record_failure name).mapsAligned = true ∧
      (lbC1.record_success name).mapsAligned = true)) :=
  ⟨by decide, C2_keysets_amended lbC1 (by decide)⟩

/-! ## Claim C3: round-robin fairness -/

/-- Results of `n` consecutive `get_next_service` calls (the round-robin
branch never consults the random pick, which is passed as 0). -/
def LoadBalancer.rrCalls : LoadBalancer → Nat → List (Option ServiceInfo)
  | _, 0 => []
  | lb, n + 1 =>
    (lb.get_next_service 0).1 :: (lb.get_next_service 0).2.rrCalls n

theorem get_next_service_rr (lb : LoadBalancer)
    (hs : lb.config.strategy = "round_robin")
    (hne : lb.availableServices ≠ []) (r : Nat) :
    lb.get_next_service r =
      (lb.availableServices.get?
        (lb.current_index % lb.availableServices.length),
       { lb with current_index := lb.current_index + 1 }) := by
  have hempty : lb.availableServices.isEmpty = false := by
    simp [List.isEmpty_iff, hne]
  simp [LoadBalancer.get_next_service, hempty, hs]

theorem rrCalls_formula :
    ∀ (n : Nat) (lb : LoadBalancer),
      lb.config.strategy = "round_robin" → lb.availableServices ≠ [] →
      lb.rrCalls n = (List.range n).map
        (fun j => lb.availableServices.get?
          ((lb.current_index + j) % lb.availableServices.length)) := by
  intro n
  induction n with
  | zero =>
    intro lb _ _
    simp [LoadBalancer.rrCalls]
  | succ m ih =>
    intro lb hs hne
    have hstep := get_next_service_rr lb hs hne 0
    have htail := ih { lb with current_index := lb.current_index + 1 } hs hne
    simp only [LoadBalancer.rrCalls, hstep]
    rw [htail, List.range_succ_eq_map, List.map_cons, List.map_map]
    have harith : ∀ j : Nat,
        lb.current_index + 1 + j = lb.current_index + (j + 1) := by omega
    simp [harith, Function.comp, Nat.succ_eq_add_one,
      LoadBalancer.availableServices]

theorem rrCalls_rotate (lb : LoadBalancer)
    (hs : lb.config.strategy = "round_robin")
    (hne : lb.availableServices ≠ []) :
    lb.rrCalls lb.availableServices.length =
      (lb.availableServices.rotate lb.current_index).map some := by
  have hN : 0 < lb.availableServices.length := List.length_pos.mpr hne
  rw [rrCalls_formula _ lb hs hne]
  apply List.ext_get?_iff.mpr
  intro j
  by_cases hj : j < lb.availableServices.length
  · rw [List.get?_map, List.get?_map, List.get?_range hj,
      List.get?_rotate hj]
    obtain ⟨v, hv⟩ : ∃ v, lb.availableServices.get?
        ((j + lb.current_index) % lb.availableServices.length) = some v := by
      cases hg : lb.availableServices.get?
          ((j + lb.current_index) % lb.availableServices.length) with
      | none =>
        have := List.get?_eq_none.mp hg
        have := Nat.mod_lt (j + lb.current_index) hN
        omega
      | some v => exact ⟨v, rfl⟩
    simp only [Option.map_some']
    rw [Nat.add_comm lb.current_index j, hv]
    rfl
  · have hL : ((List.range lb.availableServices.length).map
        (fun j => lb.availableServices.get?
          ((lb.current_index + j) % lb.availableServices.length))).get? j =
        none :=
      List.get?_eq_none.mpr (by simpa using Nat.le_of_not_lt hj)
    have hR : ((lb.availableServices.rotate lb.current_index).map
        some).get? j = none :=
      List.get?_eq_none.mpr
        (by simpa [List.length_rotate] using Nat.le_of_not_lt hj)
    rw [hL, hR]

/-- C3: with the round-robin strategy and a non-empty available set, the
`N` consecutive calls (`N` the available-set size) return exactly the
rotation of the available list starting at the shared cursor — hence each
available service exactly once — and after a removal the very next call
indexes modulo the new, current available-set size. -/
theorem C3_round_robin (lb : LoadBalancer)
    (hs : lb.config.strategy = "round_robin")
    (hne : lb.availableServices ≠ []) :
    lb.rrCalls lb.availableServices.length =
      (lb.availableServices.rotate lb.current_index).map some ∧
    (lb.rrCalls lb.availableServices.length).Perm
      (lb.availableServices.map some) ∧
    (∀ name, (lb.remove_service name).availableServices ≠ [] →
      ((lb.remove_service name).get_next_service 0).1 =
        (lb.remove_service name).availableServices.get?
          (lb.current_index %
            (lb.remove_service name).availableServices.length)) := by
  have h1 := rrCalls_rotate lb hs hne
  refine ⟨h1, ?_, ?_⟩
  · rw [h1]
    exact (lb.availableServices.rotate_perm lb.current_index).map some
  · intro name hne'
    have hs' : (lb.remove_service name).config.strategy = "round_robin" := hs
    rw [get_next_service_rr _ hs' hne' 0]
    rfl

/-- A default-config load balancer with three services and a cursor that
has already advanced past the list length. -/
def lbC3 : LoadBalancer :=
  { ((lbEmpty.add_service svcA).add_service svcB).add_service svcC with
    current_index := 4 }

/-- Witness for C3 on a concrete three-service balancer. -/
theorem C3_round_robin_witness :
    lbC3.config.strategy = "round_robin" ∧ lbC3.availableServices ≠ [] ∧
    (lbC3.rrCalls lbC3.availableServices.length =
      (lbC3.availableServices.rotate lbC3.current_index).map some ∧
    (lbC3.rrCalls lbC3.availableServices.length).Perm
      (lbC3.availableServices.map some) ∧
    (∀ name, (lbC3.remove_service name).availableServices ≠ [] →
      ((lbC3.remove_service name).get_next_service 0).1 =
        (lbC3.remove_service name).availableServices.get?
          (lbC3.current_index %
            (lbC3.remove_service name).availableServices.length))) :=
  ⟨rfl, by decide, C3_round_robin lbC3 rfl (by decide)⟩

/-! ## Claim C4: discovery read-through cache -/

/-- C4: a cache entry younger than `cache_ttl` is returned with no state
change and independently of the registry; with a stale or absent entry the
registry is queried, a hit is stored as `(info, now)` and returned, and a
miss returns absence and leaves the discovery state exactly as it was (no
negative caching), so with no cache entry a later registration is visible
on the very next call. -/
theorem C4_discovery_cache (d : ServiceDiscovery) (r : ServiceRegistry)
    (name : String) (now : Int) :
    (∀ (info : ServiceInfo) (ts : Int),
      dictGet d.cache name = some (info, ts) →
      now - ts < d.cache_ttl →
      ∀ r' : ServiceRegistry,
        d.discover_service r' name now = (some info, d)) ∧
    (∀ (info : ServiceInfo) (ts : Int),
      dictGet d.cache name = some (info, ts) →
      ¬(now - ts < d.cache_ttl) →
      (∀ info2, r.get_service name = some info2 →
        d.discover_service r name now =
          (some info2,
           { d with cache := dictInsert d.cache name (info2, now) })) ∧
      (r.get_service name = none →
        d.discover_service r name now = (none, d))) ∧
    (dictGet d.cache name = none →
      (∀ info2, r.get_service name = some info2 →
        d.discover_service r name now =
          (some info2,
           { d with cache := dictInsert d.cache name (info2, now) })) ∧
      (r.get_service name = none →
        d.discover_service r name now = (none, d)) ∧
      (∀ (r2 : ServiceRegistry) (info2 : ServiceInfo) (now2 : Int),
        r2.get_service name = some info2 →
        (d.discover_service r2 name now2).1 = some info2)) := by
  refine ⟨?_, ?_, ?_⟩
  · intro info ts hc hf r'
    simp [ServiceDiscovery.discover_service, hc, hf]
  · intro info ts hc hf
    constructor
    · intro info2 hr
      simp [ServiceDiscovery.discover_service, hc, hf, hr]
    · intro hr
      simp [ServiceDiscovery.discover_service, hc, hf, hr]
  · intro hc
    refine ⟨?_, ?_, ?_⟩
    · intro info2 hr
      simp [ServiceDiscovery.discover_service, hc, hr]
    · intro hr
      simp [ServiceDiscovery.discover_service, hc, hr]
    · intro r2 info2 now2 hr
      simp [ServiceDiscovery.discover_service, hc, hr]

/-- A registry whose only entry is `svcA` under name `a`. -/
def regC4 : ServiceRegistry := { services := [("a", svcA)] }

/-- An empty registry. -/
def regEmpty : ServiceRegistry := {}

/-- A discovery client caching `svcA` with timestamp 0 (ttl 10). -/
def dscC4 : ServiceDiscovery := { cache := [("a", (svcA, 0))] }

/-- A discovery client with an empty cache. -/
def dscEmpty : ServiceDiscovery := {}

/-- Witness for C4: a fresh hit at time 5 (registry ignored), a stale
entry at time 20 refreshed from the registry, a stale entry at time 20
with a registry miss left untouched, and an uncached name read through. -/
theorem C4_discovery_cache_witness :
    dscC4.discover_service regEmpty "a" 5 = (some svcA, dscC4) ∧
    dscC4.discover_service regC4 "a" 20 =
      (some svcA,
       { dscC4 with cache := (dictInsert dscC4.cache "a" (svcA, 20)) }) ∧
    dscC4.discover_service regEmpty "a" 20 = (none, dscC4) ∧
    (dscEmpty.discover_service regC4 "a" 7).1 = some svcA :=
  ⟨(C4_discovery_cache dscC4 regEmpty "a" 5).1 svcA 0 rfl (by decide)
      regEmpty,
   ((C4_discovery_cache dscC4 regC4 "a" 20).2.1 svcA 0 rfl (by decide)).1
      svcA rfl,
   ((C4_discovery_cache dscC4 regEmpty "a" 20).2.1 svcA 0 rfl
      (by decide)).2 rfl,
   ((C4_discovery_cache dscEmpty regC4 "a" 7).2.2 rfl).2.2 regC4 svcA 7 rfl⟩

/-! ## Claim C10: expired cache entries are never served -/

/-- C10: when the only cache entry for a name is `cache_ttl` old or older
and the registry has no entry, `discover_service` returns absence — never
the stale cached value — while the expired entry itself stays in the
cache. -/
theorem C10_no_stale_return (d : ServiceDiscovery) (r : ServiceRegistry)
    (name : String) (now : Int) (info : ServiceInfo) (ts : Int)
    (hc : dictGet d.cache name = some (info, ts))
    (hstale : d.cache_ttl ≤ now - ts)
    (hreg : r.get_service name = none) :
    d.discover_service r name now = (none, d) ∧
    dictGet (d.discover_service r name now).2.cache name =
      some (info, ts) := by
  have hf : ¬(now - ts < d.cache_ttl) := not_lt.mpr hstale
  have h1 : d.discover_service r name now = (none, d) := by
    simp [ServiceDiscovery.discover_service, hc, hf, hreg]
  refine ⟨h1, ?_⟩
  rw [h1]
  exact hc

/-- Witness for C10 on the concrete expired cache entry. -/
theorem C10_no_stale_return_witness :
    (dictGet dscC4.cache "a" = some (svcA, 0) ∧
     dscC4.cache_ttl ≤ 10 - 0 ∧
     regEmpty.get_service "a" = none) ∧
    (dscC4.discover_service regEmpty "a" 10 = (none, dscC4) ∧
     dictGet (dscC4.discover_service regEmpty "a" 10).2.cache "a" =
       some (svcA, 0)) :=
  ⟨⟨rfl, by decide, rfl⟩,
   C10_no_stale_return dscC4 regEmpty "a" 10 svcA 0 rfl (by decide) rfl⟩

/-! ## Claim C5: registry staleness sweep and heartbeat -/

/-- Inserting preserves distinctness of keys. -/
theorem nodupKeys_insert {β : Type} (d : List (String × β)) (k : String)
    (v : β) (hnd : (d.map Prod.fst).Nodup) :
    ((dictInsert d k v).map Prod.fst).Nodup := by
  induction d with
  | nil => simp [dictInsert]
  | cons p rest ih =>
    obtain ⟨a, b⟩ := p
    rw [List.map_cons, List.nodup_cons] at hnd
    by_cases ha : a = k
    · subst ha
      simpa [dictInsert, List.nodup_cons] using hnd
    · simp only [dictInsert, if_neg ha, List.map_cons, List.nodup_cons]
      refine ⟨?_, ih hnd.2⟩
      intro hmem
      have := (dictContains_iff_mem_keys (dictInsert rest k v) a).mpr hmem
      rcases (dictContains_insert rest k a v).mp this with h | h
      · exact ha h
      · exact hnd.1 ((dictContains_iff_mem_keys rest a).mp h)

theorem cleanupSweep_get (r : ServiceRegistry) (now : Int)
    (hnd : (r.services.map Prod.fst).Nodup) (name : String) :
    dictGet (r.cleanupSweep now).services name =
      (dictGet r.services name).bind (fun info =>
        if r.service_timeout < now - info.last_heartbeat then none
        else some info) := by
  have h := dictGet_filter_of_nodupKeys
      (fun info => !decide (r.service_timeout < now - info.last_heartbeat))
      r.services hnd name
  have h2 : dictGet (r.cleanupSweep now).services name =
      (dictGet r.services name).bind (fun v =>
        if (!decide (r.service_timeout < now - v.last_heartbeat)) = true
        then some v else none) := h
  rw [h2]
  cases dictGet r.services name with
  | none => rfl
  | some info =>
    show (if (!decide (r.service_timeout < now - info.last_heartbeat)) =
        true then some info else none) =
      (if r.service_timeout < now - info.last_heartbeat then none
        else some info)
    by_cases hstale : r.service_timeout < now - info.last_heartbeat
    · rw [decide_eq_true hstale, if_pos hstale]
      simp
    · rw [decide_eq_false hstale, if_neg hstale]
      simp

/-- C5: one cleanup iteration at time `now` removes exactly the entries
with `now - last_heartbeat > service_timeout` and keeps every other entry
unchanged; a heartbeat at time `t` refreshes `last_heartbeat` to `t`, so
the entry survives any sweep at a time `now` with
`now - t ≤ service_timeout`. -/
theorem C5_registry_sweep (r : ServiceRegistry) (now : Int)
    (hnd : (r.services.map Prod.fst).Nodup) :
    (∀ name, dictGet (r.cleanupSweep now).services name =
      (dictGet r.services name).bind (fun info =>
        if r.service_timeout < now - info.last_heartbeat then none
        else some info)) ∧
    (∀ (name : String) (info : ServiceInfo) (t : Int),
      dictGet r.services name = some info →
      ¬(r.service_timeout < now - t) →
      dictGet (((r.heartbeat name t).1).cleanupSweep now).services name =
        some { info with last_heartbeat := t }) := by
  refine ⟨cleanupSweep_get r now hnd, ?_⟩
  intro name info t hget hfresh
  have hhb : (r.heartbeat name t).1 =
      { r with services :=
          (dictInsert r.services name { info with last_heartbeat := t }) } := by
    simp [ServiceRegistry.heartbeat, hget]
  rw [hhb]
  have hnd' : ((dictInsert r.services name
      { info with last_heartbeat := t }).map Prod.fst).Nodup :=
    nodupKeys_insert r.services name _ hnd
  have hsweep := cleanupSweep_get
    { r with services :=
        (dictInsert r.services name { info with last_heartbeat := t }) }
    now hnd' name
  rw [hsweep]
  show (dictGet (dictInsert r.services name
      { info with last_heartbeat := t }) name).bind _ = _
  rw [dictGet_insert_self]
  simp [hfresh]

/-- A registry with two entries: `a` heartbeated at time 0 and `b`
heartbeated at time 50 (timeout 30). -/
def regC5 : ServiceRegistry :=
  { services := [("a", svcA), ("b", { svcB with last_heartbeat := 50 })] }

/-- Witness for C5: at time 60 the sweep removes `a` (staleness 60 > 30)
and keeps `b` (staleness 10), and a heartbeat for `a` at time 55 saves it
from the same sweep. -/
theorem C5_registry_sweep_witness :
    (regC5.services.map Prod.fst).Nodup ∧
    ((∀ name, dictGet (regC5.cleanupSweep 60).services name =
      (dictGet regC5.services name).bind (fun info =>
        if regC5.service_timeout < 60 - info.last_heartbeat then none
        else some info)) ∧
    (∀ (name : String) (info : ServiceInfo) (t : Int),
      dictGet regC5.services name = some info →
      ¬(regC5.service_timeout < 60 - t) →
      dictGet (((regC5.heartbeat name t).1).cleanupSweep 60).services name =
        some { info with last_heartbeat := t })) :=
  ⟨by decide, C5_registry_sweep regC5 60 (by decide)⟩

/-! ## Claim C6: health-transition deduplication -/

theorem runProbes_ok_of_healthy (m : Nat) :
    ∀ health : ServiceHealth,
      health.status = ServiceStatus.healthy →
      (runProbes health
        (List.replicate m (ProbeOutcome.ok200 0, 0))).2 = 0 := by
  induction m with
  | zero =>
    intro health _
    rfl
  | succ k ih =>
    intro health hh
    have hnot : (check_service_health health (ProbeOutcome.ok200 0) 0).2 =
        false := by
      simp [check_service_health, hh]
    have hstat : (check_service_health health
        (ProbeOutcome.ok200 0) 0).1.status = ServiceStatus.healthy := rfl
    simp [List.replicate_succ, runProbes, hnot, ih _ hstat]

/-- C6: the callbacks fire exactly when the probe's classification differs
from the current status (so never when they agree), the new status is
always the probe's classification, and starting from any non-HEALTHY
record a run of `n ≥ 1` successful probes fires the callbacks exactly
once in total. -/
theorem C6_health_dedup (health : ServiceHealth)
    (h0 : health.status ≠ ServiceStatus.healthy) (n : Nat) (hn : 1 ≤ n) :
    (∀ (h' : ServiceHealth) (outcome : ProbeOutcome) (t : Int),
      ((check_service_health h' outcome t).2 = true ↔
        outcome.classification ≠ h'.status) ∧
      (check_service_health h' outcome t).1.status =
        outcome.classification) ∧
    (runProbes health
      (List.replicate n (ProbeOutcome.ok200 0, 0))).2 = 1 := by
  constructor
  · intro h' outcome t
    cases outcome with
    | ok200 rt =>
      constructor
      · simp [check_service_health, ProbeOutcome.classification, ne_comm]
      · rfl
    | httpError status =>
      constructor
      · simp [check_service_health, handle_health_failure,
          ProbeOutcome.classification, ne_comm]
      · rfl
    | exn message =>
      constructor
      · simp [check_service_health, handle_health_failure,
          ProbeOutcome.classification, ne_comm]
      · rfl
  · obtain ⟨m, rfl⟩ : ∃ m, n = m + 1 := ⟨n - 1, by omega⟩
    have hnot : (check_service_health health (ProbeOutcome.ok200 0) 0).2 =
        true := by
      simp [check_service_health, h0]
    have hstat : (check_service_health health
        (ProbeOutcome.ok200 0) 0).1.status = ServiceStatus.healthy := rfl
    simp [List.replicate_succ, runProbes, hnot,
      runProbes_ok_of_healthy m _ hstat]

/-- A freshly added monitored service in the UNKNOWN state. -/
def healthC6 : ServiceHealth :=
  { service_name := "a", status := ServiceStatus.unknown, last_check := 0 }

/-- Witness for C6: three successful probes from UNKNOWN notify once. -/
theorem C6_health_dedup_witness :
    (healthC6.status ≠ ServiceStatus.healthy ∧ 1 ≤ 3) ∧
    ((∀ (h' : ServiceHealth) (outcome : ProbeOutcome) (t : Int),
      ((check_service_health h' outcome t).2 = true ↔
        outcome.classification ≠ h'.status) ∧
      (check_service_health h' outcome t).1.status =
        outcome.classification) ∧
    (runProbes healthC6
      (List.replicate 3 (ProbeOutcome.ok200 0, 0))).2 = 1) :=
  ⟨⟨by decide, by decide⟩, C6_health_dedup healthC6 (by decide) 3 (by decide)⟩

/-! ## Claim C7: restart cap -/

theorem restart_service_config (o : ServiceOrchestrator) (name : String) :
    (o.restart_service name).1.config = o.config := by
  unfold ServiceOrchestrator.restart_service
  by_cases he : o.config.auto_restart_enabled
  · by_cases hm : o.config.max_restart_attempts ≤
        (dictGet o.restart_attempts name).getD 0
    · simp [he, hm]
    · simp [he, hm]
  · simp [he]

theorem restartIter_config (o : ServiceOrchestrator) (name : String)
    (k : Nat) : (restartIter o name k).config = o.config := by
  induction k with
  | zero => rfl
  | succ n ih => rw [restartIter, restart_service_config, ih]

theorem restartIter_attempts (o : ServiceOrchestrator) (name : String)
    (he : o.config.auto_restart_enabled = true)
    (h0 : (dictGet o.restart_attempts name).getD 0 = 0) :
    ∀ k, (dictGet (restartIter o name k).restart_attempts name).getD 0 =
      min k o.config.max_restart_attempts := by
  intro k
  induction k with
  | zero => simpa using h0
  | succ n ih =>
    have hcfg := restartIter_config o name n
    show (dictGet ((restartIter o name n).restart_service
        name).1.restart_attempts name).getD 0 = _
    unfold ServiceOrchestrator.restart_service
    rw [hcfg, he]
    simp only [Bool.not_true, Bool.false_eq_true, if_false]
    by_cases hm : o.config.max_restart_attempts ≤
        (dictGet (restartIter o name n).restart_attempts name).getD 0
    · rw [if_pos hm]
      rw [ih] at hm
      rw [ih]
      omega
    · rw [if_neg hm]
      show (dictGet (dictInsert (restartIter o name n).restart_attempts name
        ((dictGet (restartIter o name n).restart_attempts name).getD 0 + 1))
          name).getD 0 = _
      rw [dictGet_insert_self]
      rw [ih] at hm
      simp only [Option.getD_some]
      rw [ih]
      omega

/-- C7: with auto-restart enabled and the per-service attempt counter at
0, each of the first `max_restart_attempts` calls to `restart_service`
returns success and increments the counter, and the call after the
counter has reached the maximum returns failure. -/
theorem C7_restart_cap (o : ServiceOrchestrator) (name : String)
    (he : o.config.auto_restart_enabled = true)
    (h0 : (dictGet o.restart_attempts name).getD 0 = 0) :
    (∀ k, k < o.config.max_restart_attempts →
      ((restartIter o name k).restart_service name).2 = true ∧
      (dictGet (restartIter o name (k + 1)).restart_attempts name).getD 0 =
        k + 1) ∧
    ((restartIter o name
        o.config.max_restart_attempts).restart_service name).2 = false := by
  have hatt := restartIter_attempts o name he h0
  constructor
  · intro k hk
    constructor
    · have hcfg := restartIter_config o name k
      have hlt : ¬ o.config.max_restart_attempts ≤
          (dictGet (restartIter o name k).restart_attempts name).getD 0 := by
        rw [hatt k]
        omega
      unfold ServiceOrchestrator.restart_service
      rw [hcfg, he]
      simp only [Bool.not_true, Bool.false_eq_true, if_false]
      rw [if_neg hlt]
    · rw [hatt (k + 1)]
      omega
  · have hcfg := restartIter_config o name o.config.max_restart_attempts
    have hge : o.config.max_restart_attempts ≤
        (dictGet (restartIter o name
          o.config.max_restart_attempts).restart_attempts name).getD 0 := by
      rw [hatt]
      omega
    unfold ServiceOrchestrator.restart_service
    rw [hcfg, he]
    simp only [Bool.not_true, Bool.false_eq_true, if_false]
    rw [if_pos hge]

/-- An orchestrator with the default configuration (auto-restart on,
at most 3 attempts) and no attempts recorded. -/
def orchC7 : ServiceOrchestrator := { config := {} }

/-- Witness for C7 on the default configuration. -/
theorem C7_restart_cap_witness :
    (orchC7.config.auto_restart_enabled = true ∧
     (dictGet orchC7.restart_attempts "svc").getD 0 = 0) ∧
    ((∀ k, k < orchC7.config.max_restart_attempts →
      ((restartIter orchC7 "svc" k).restart_service "svc").2 = true ∧
      (dictGet (restartIter orchC7 "svc" (k + 1)).restart_attempts
        "svc").getD 0 = k + 1) ∧
    ((restartIter orchC7 "svc"
        orchC7.config.max_restart_attempts).restart_service "svc").2 =
      false) :=
  ⟨⟨rfl, rfl⟩, C7_restart_cap orchC7 "svc" rfl rfl⟩

/-! ## Claim C8: connection counters floored at zero -/

/-- C8: starting from a non-negative per-service connection counter, both
`increment_connection` and `decrement_connection` keep it non-negative,
decrementing at 0 leaves it at 0, and both operations leave every other
service's counter untouched. -/
theorem C8_connection_floor (lb : LoadBalancer) (name : String)
    (h : 0 ≤ (dictGet lb.connection_counts name).getD 0) :
    0 ≤ (dictGet (lb.increment_connection name).connection_counts
      name).getD 0 ∧
    0 ≤ (dictGet (lb.decrement_connection name).connection_counts
      name).getD 0 ∧
    (dictGet lb.connection_counts name = some 0 →
      dictGet (lb.decrement_connection name).connection_counts name =
        some 0) ∧
    (∀ other, other ≠ name →
      dictGet (lb.increment_connection name).connection_counts other =
        dictGet lb.connection_counts other ∧
      dictGet (lb.decrement_connection name).connection_counts other =
        dictGet lb.connection_counts other) := by
  refine ⟨?_, ?_, ?_, ?_⟩
  · unfold LoadBalancer.increment_connection
    by_cases hc : dictContains lb.connection_counts name
    · rw [if_pos hc]
      show 0 ≤ (dictGet (dictInsert lb.connection_counts name
        ((dictGet lb.connection_counts name).getD 0 + 1)) name).getD 0
      rw [dictGet_insert_self]
      simp only [Option.getD_some]
      omega
    · rw [if_neg hc]
      exact h
  · unfold LoadBalancer.decrement_connection
    by_cases hc : dictContains lb.connection_counts name
    · rw [if_pos hc]
      show 0 ≤ (dictGet (dictInsert lb.connection_counts name
        (max 0 ((dictGet lb.connection_counts name).getD 0 - 1))) name).getD 0
      rw [dictGet_insert_self]
      simp only [Option.getD_some]
      exact le_max_left 0 _
    · rw [if_neg hc]
      exact h
  · intro hzero
    unfold LoadBalancer.decrement_connection
    have hc : dictContains lb.connection_counts name = true := by
      simp [dictContains, hzero]
    rw [if_pos hc]
    show dictGet (dictInsert lb.connection_counts name
      (max 0 ((dictGet lb.connection_counts name).getD 0 - 1))) name = some 0
    rw [hzero, dictGet_insert_self]
    norm_num
  · intro other hother
    constructor
    · unfold LoadBalancer.increment_connection
      by_cases hc : dictContains lb.connection_counts name
      · rw [if_pos hc]
        show dictGet (dictInsert lb.connection_counts name
          ((dictGet lb.connection_counts name).getD 0 + 1)) other = _
        exact dictGet_insert_ne lb.connection_counts _ hother
      · rw [if_neg hc]
    · unfold LoadBalancer.decrement_connection
      by_cases hc : dictContains lb.connection_counts name
      · rw [if_pos hc]
        show dictGet (dictInsert lb.connection_counts name
          (max 0 ((dictGet lb.connection_counts name).getD 0 - 1))) other = _
        exact dictGet_insert_ne lb.connection_counts _ hother
      · rw [if_neg hc]

/-- Witness for C8 on the concrete one-service balancer. -/
theorem C8_connection_floor_witness :
    0 ≤ (dictGet lbC1.connection_counts "a").getD 0 ∧
    (0 ≤ (dictGet (lbC1.increment_connection "a").connection_counts
      "a").getD 0 ∧
    0 ≤ (dictGet (lbC1.decrement_connection "a").connection_counts
      "a").getD 0 ∧
    (dictGet lbC1.connection_counts "a" = some 0 →
      dictGet (lbC1.decrement_connection "a").connection_counts "a" =
        some 0) ∧
    (∀ other, other ≠ "a" →
      dictGet (lbC1.increment_connection "a").connection_counts other =
        dictGet lbC1.connection_counts other ∧
      dictGet (lbC1.decrement_connection "a").connection_counts other =
        dictGet lbC1.connection_counts other)) :=
  ⟨by decide, C8_connection_floor lbC1 "a" (by decide)⟩

/-! ## Claim C9: restart disabled by configuration -/

/-- C9: with `auto_restart_enabled` false, `restart_service` returns
failure for every name and leaves the orchestrator state (in particular
the restart-attempt counters) unchanged. -/
theorem C9_restart_disabled (o : ServiceOrchestrator)
    (h : o.config.auto_restart_enabled = false) (service_name : String) :
    o.restart_service service_name = (o, false) := by
  simp [ServiceOrchestrator.restart_service, h]

/-- An orchestrator configured with auto-restart disabled. -/
def orchC9 : ServiceOrchestrator :=
  { config := { auto_restart_enabled := false } }

/-- Witness for C9. -/
theorem C9_restart_disabled_witness :
    orchC9.config.auto_restart_enabled = false ∧
    orchC9.restart_service "svc" = (orchC9, false) :=
  ⟨rfl, C9_restart_disabled orchC9 rfl "svc"⟩
